import Mathlib

/-!
Verification of the OpenCut dynamic-component subsystem: the module compiler
(`src/unnamed/part_012`), the dynamic-component loader and hot-reload watcher
(`src/unnamed/part_001`), the frame prerenderer (`src/unnamed/part_006`) and the
single-file effect compiler (`services/ai-agent/effect-compiler.ts`).

The JavaScript code is shallowly embedded.  Runtime objects are modelled with an
explicit heap (a list of field tables, an address being an index into the list)
so that object identity — central to the circular-import claims — is faithfully
represented.  Module bodies are modelled in their sucrase-translated form: a
list of `require` specifiers executed in order followed by a list of writes to
the module's `exports` object.  Raw source text is modelled abstractly by which
forbidden regular-expression patterns it matches and whether sucrase's
`transform` succeeds on it, since the claims only observe the source through
those two functions.
-/

/-- Runtime values of the embedded JavaScript fragment.  `obj` is a heap
address; `builtin` is one of the two mock modules (`remotion` / `react`);
`undefV` is JavaScript's `undefined`, produced by absent property reads. -/
inductive JsVal where
  | num (n : Nat)
  | fnv (id : Nat)
  | obj (addr : Nat)
  | builtin (name : String)
  | undefV
deriving DecidableEq, Repr

/-- JavaScript `typeof`. -/
def typeofVal : JsVal → String
  | .num _ => "number"
  | .fnv _ => "function"
  | .obj _ => "object"
  | .builtin _ => "object"
  | .undefV => "undefined"

/-- JavaScript truthiness for the values of the model. -/
def truthy : JsVal → Bool
  | .num n => decide (n ≠ 0)
  | .undefV => false
  | _ => true

/-- Association-list lookup keyed by strings; the model of a JavaScript
record / `Map` read. -/
def alookup {β : Type} : List (String × β) → String → Option β
  | [], _ => none
  | (k, v) :: rest, key => if k = key then some v else alookup rest key

/-- Association-list update: replaces an existing key in place, appends a new
key at the end — JavaScript property-assignment / `Map.set` semantics. -/
def aset {β : Type} : List (String × β) → String → β → List (String × β)
  | [], key, v => [(key, v)]
  | (k, w) :: rest, key, v =>
      if k = key then (key, v) :: rest else (k, w) :: aset rest key v

/-- Literal values a module body can mention directly. -/
inductive SLit where
  | num (n : Nat)
  | fnv (id : Nat)
deriving DecidableEq, Repr

def SLit.toVal : SLit → JsVal
  | .num n => .num n
  | .fnv i => .fnv i

/-- Right-hand sides of the `exports.<name> = …` statements of a translated
module body: a literal, the value returned by the body's i-th `require`
call, or a one-level object literal (how an entry file produces a wrapper
object carrying its own `default` key). -/
inductive MExpr where
  | lit (v : SLit)
  | impRef (i : Nat)
  | objLit (fields : List (String × SLit))
deriving DecidableEq, Repr

/-- A module body in sucrase-translated form: the `require` specifiers it
evaluates, in order, followed by the writes it performs on its `exports`
object.  (Bodies are modelled as terminating; none of the checked claims
involves a module body that itself throws.) -/
structure ModBody where
  imports : List String
  exps : List (String × MExpr)
deriving DecidableEq, Repr

/-- The mutable state of one `executeMultiFileComponent` pass: the object heap,
the `moduleCache` (part_012 line 225: normalized name ↦ (address of the entry's
`exports` object, `compiled` flag)), and a log of the module names whose bodies
were handed to `new Function` for execution, in order. -/
structure MState where
  heap : List (List (String × JsVal))
  cache : List (String × (Nat × Bool))
  execLog : List String
deriving DecidableEq, Repr

def emptyMState : MState := ⟨[], [], []⟩

/-- Allocate a fresh object (`{}` or an object literal); its address is the
current heap length. -/
def allocObj (s : MState) (fields : List (String × JsVal)) : MState × Nat :=
  ({ s with heap := s.heap ++ [fields] }, s.heap.length)

def heapAt (s : MState) (a : Nat) : Option (List (String × JsVal)) :=
  s.heap[a]?

/-- Property write `o.k = v` on the object at address `a`. -/
def setProp (s : MState) (a : Nat) (k : String) (v : JsVal) : MState :=
  match s.heap[a]? with
  | none => s
  | some fields => { s with heap := s.heap.set a (aset fields k v) }

/-- Property read `o.k`; absent keys read as `undefined`.  The `react` mock
module is a Proxy whose `get` trap returns React itself for the key
`default` (part_012 lines 65-74); no claim reads any other builtin
property, so the rest of the builtin surface is left at `undefV`. -/
def getProp (s : MState) (v : JsVal) (k : String) : JsVal :=
  match v with
  | .obj a =>
      match heapAt s a with
      | some fields => (alookup fields k).getD .undefV
      | none => .undefV
  | .builtin b => if b = "react" ∧ k = "default" then .builtin "react" else .undefV
  | _ => .undefV

/-- The JavaScript `in` operator as used by `"default" in Component`
(part_012 line 294); for the mock builtin modules the check forwards to the
proxy target and no claim depends on it, so it is modelled as `false`. -/
def hasProp (s : MState) (v : JsVal) (k : String) : Bool :=
  match v with
  | .obj a =>
      match heapAt s a with
      | some fields => (alookup fields k).isSome
      | none => false
  | _ => false

/-- Model of `String.startsWith`, restated over the character list so that it reduces
inside the kernel. -/
def strStartsWith (s p : String) : Bool := p.data.isPrefixOf s.data

/-- Model of `String.endsWith` over the character list. -/
def strEndsWith (s p : String) : Bool := p.data.isSuffixOf s.data

/-- Drop the first `n` characters, as `String.drop` does. -/
def strDrop (s : String) (n : Nat) : String := ⟨s.data.drop n⟩

/-- Drop the last `n` characters, as `String.dropRight` does. -/
def strDropRight (s : String) (n : Nat) : String :=
  ⟨s.data.take (s.data.length - n)⟩

/-- Strips one trailing source extension, the model of
`.replace(/\.(tsx|ts|jsx|js)$/, "")`. -/
def stripExtension (s : String) : String :=
  if strEndsWith s ".tsx" then strDropRight s 4
  else if strEndsWith s ".ts" then strDropRight s 3
  else if strEndsWith s ".jsx" then strDropRight s 4
  else if strEndsWith s ".js" then strDropRight s 3
  else s

/-- Normalization applied by the module `require` (part_012 lines 177-180):
strip a leading `./`, then a leading `../`, then one source extension. -/
def cleanModuleName (m : String) : String :=
  let s1 := if strStartsWith m "./" then strDrop m 2 else m
  let s2 := if strStartsWith s1 "../" then strDrop s1 3 else s1
  stripExtension s2

/-- The two always-available mock modules (part_012 lines 80-83). -/
def mockModules (m : String) : Option JsVal :=
  if m = "remotion" then some (.builtin "remotion")
  else if m = "react" then some (.builtin "react")
  else none

/-- Whitelisted external dependencies (`storage-schema`, part_006 lines 436-441). -/
def ALLOWED_DEPENDENCIES : List String :=
  ["react", "remotion", "framer-motion", "@remotion/transitions"]

def isAllowedDependency (dep : String) : Bool :=
  decide (dep ∈ ALLOWED_DEPENDENCIES)

/-- One call of the `require` function built by `createModuleRequire`
(part_012 lines 152-209).  `recurse` is the `compileModule` closure the
require function captures; it is instantiated with the fueled
`compileModule` below.  Returns `none` only on fuel exhaustion. -/
def createModuleRequire
    (fileContents : List (String × ModBody))
    (recurse : String → ModBody → MState → Option (JsVal × MState))
    (moduleName : String) (s : MState) : Option (JsVal × MState) :=
  match mockModules moduleName with
  | some v => some (v, s)
  | none =>
    if !strStartsWith moduleName "." && !strStartsWith moduleName "/" then
      -- external dependency: whether whitelisted or not, the code warns and
      -- returns a fresh empty object (lines 164-172)
      let (s1, a) := allocObj s []
      some (.obj a, s1)
    else if strStartsWith moduleName "./" || strStartsWith moduleName "../" then
      let cleanName := cleanModuleName moduleName
      match alookup s.cache cleanName with
      | some (addr, true) => some (.obj addr, s)
      | _ =>
        match alookup fileContents cleanName with
        | none =>
            -- module not found: warn and return a fresh empty object
            let (s1, a) := allocObj s []
            some (.obj a, s1)
        | some body => recurse cleanName body s
    else
      -- unknown module shape: warn and return a fresh empty object
      let (s1, a) := allocObj s []
      some (.obj a, s1)

/-- Evaluate one export right-hand side; `impRef i` reads the value the body's
i-th `require` call returned, an object literal allocates a fresh object. -/
def evalMExpr (importVals : List JsVal) (s : MState) : MExpr → MState × JsVal
  | .lit v => (s, v.toVal)
  | .impRef i => (s, importVals[i]?.getD .undefV)
  | .objLit fields =>
      let (s1, a) := allocObj s (fields.map fun kv => (kv.1, kv.2.toVal))
      (s1, .obj a)

/-- Perform the body's `exports.<k> = e` writes, in order, on the object at
address `eAddr` (the module's `mockExports`). -/
def writeExports (importVals : List JsVal) (eAddr : Nat) :
    List (String × MExpr) → MState → MState
  | [], s => s
  | (k, e) :: rest, s =>
      let (s1, v) := evalMExpr importVals s e
      writeExports importVals eAddr rest (setProp s1 eAddr k v)

/-- Run the body's `require` calls in order, collecting the returned values. -/
def runImports (req : String → MState → Option (JsVal × MState)) :
    List String → MState → Option (List JsVal × MState)
  | [], s => some ([], s)
  | m :: ms, s =>
    match req m s with
    | none => none
    | some (v, s1) =>
      match runImports req ms s1 with
      | none => none
      | some (vs, s2) => some (v :: vs, s2)

/-- One unfolding of `compileModule` (part_012 lines 228-275); `recurse` is
the next fuel level of itself.  Mirrors the source exactly: the guard
returning any existing cache entry's exports (line 233), the placeholder
`{ exports: {}, compiled: false }` (line 238), the fresh `mockModule.exports`
object (lines 245-246), body execution, and the final cache update
`moduleCache[name] = { exports: mockExports, compiled: true }` (line 268),
which installs the `mockExports` object — not the placeholder. -/
def compileModuleStep (fileContents : List (String × ModBody))
    (recurse : String → ModBody → MState → Option (JsVal × MState))
    (name : String) (body : ModBody) (s : MState) : Option (JsVal × MState) :=
  match alookup s.cache name with
  | some entry => some (.obj entry.1, s)
  | none =>
    let p := allocObj s []
    let s2 := { p.1 with cache := aset p.1.cache name (p.2, false) }
    let q := allocObj s2 []
    let s4 := { q.1 with execLog := q.1.execLog ++ [name] }
    match runImports (createModuleRequire fileContents recurse) body.imports s4 with
    | none => none
    | some (vals, s5) =>
      let s6 := writeExports vals q.2 body.exps s5
      let s7 := { s6 with cache := aset s6.cache name (q.2, true) }
      some (.obj q.2, s7)

/-- Fueled `compileModule`.  Fuel bounds only the nesting depth of recursive
`require` calls; `none` means fuel ran out, which for the graphs the claims
exercise never happens at the fuel used. -/
def compileModule (fileContents : List (String × ModBody)) :
    Nat → String → ModBody → MState → Option (JsVal × MState)
  | 0, _, _, _ => none
  | fuel + 1, name, body, s =>
      compileModuleStep fileContents (compileModule fileContents fuel) name body s

/-- Component extraction from the entry module's exports (part_012 lines
291-314): prefer `mainExports.default`, fall back to `mainExports.Component`
by JavaScript `||`; unwrap exactly one `default` level when the chosen value
is a truthy object carrying a `default` key; return `null` (here `none`)
when the final value is falsy or not a function. -/
def selectComponent (s : MState) (mainExports : JsVal) : Option JsVal :=
  let c0 := if truthy (getProp s mainExports "default")
            then getProp s mainExports "default"
            else getProp s mainExports "Component"
  let c1 := if truthy c0 && (typeofVal c0 == "object") && hasProp s c0 "default"
            then getProp s c0 "default" else c0
  if !truthy c1 then none
  else if typeofVal c1 != "function" then none
  else some c1

/-- Model of `executeMultiFileComponent` (part_012 lines 220-315): `some (s, none)`
models `return null`, `some (s, some C)` a found component, `none` fuel
exhaustion. -/
def executeMultiFileComponent (fileContents : List (String × ModBody))
    (mainFileName : String) (fuel : Nat) : Option (MState × Option JsVal) :=
  match alookup fileContents mainFileName with
  | none => some (emptyMState, none)
  | some body =>
    match compileModule fileContents fuel mainFileName body emptyMState with
    | none => none
    | some (mainExports, s) => some (s, selectComponent s mainExports)

/-- The eleven forbidden-capability patterns of part_012 lines 87-102,
identified by their messages. -/
def FORBIDDEN_PATTERNS : List String :=
  ["禁止使用 eval", "禁止访问 document", "禁止访问 window 属性",
   "禁止访问 localStorage", "禁止访问 sessionStorage", "禁止使用 fetch",
   "禁止使用 XMLHttpRequest", "禁止访问 process", "禁止访问 __dirname",
   "禁止访问 __filename", "禁止动态 import()"]

/-- A raw source file, observed through the only two functions the compiler
applies to it: which forbidden patterns its text matches, whether sucrase's
`transform` throws (and with what message), and its translated body. -/
structure SrcFile where
  matchedPatterns : List String
  syntaxError : Option String
  body : ModBody
deriving DecidableEq, Repr

/-- Model of `validateCode` (part_012 lines 104-117): one `CompileError` per forbidden
pattern the file's text matches, in pattern order. -/
structure CompileError where
  file : String
  message : String
deriving DecidableEq, Repr

def validateCode (code : SrcFile) (filePath : String) : List CompileError :=
  (FORBIDDEN_PATTERNS.filter (fun p => decide (p ∈ code.matchedPatterns))).map
    (fun m => { file := filePath, message := "安全验证失败: " ++ m })

structure ComponentFile where
  path : String
  content : SrcFile
deriving DecidableEq, Repr

/-- The fields of `ComponentBundle` that `compile` / `validate` read.
`updatedAt` is the epoch value `Date.parse(bundle.updatedAt)`; `meta` is
opaque. -/
structure ComponentBundle where
  id : String
  name : String
  entryPoint : String
  files : List ComponentFile
  dependencies : List String
  meta : Nat
  updatedAt : Nat
deriving DecidableEq, Repr

structure CompiledModule where
  bundleId : String
  compiledAt : Nat
  component : JsVal
  meta : Nat
deriving DecidableEq, Repr

/-- Model of `ModuleCompiler.validate` (part_012 lines 377-421): entry-point existence,
dependency whitelist, then per file the security scan followed by a sucrase
syntax check. -/
def ModuleCompiler.validate (b : ComponentBundle) : List CompileError :=
  let entryErrs :=
    if b.files.any (fun f => decide (f.path = b.entryPoint)) then []
    else [{ file := b.entryPoint, message := "入口文件不存在: " ++ b.entryPoint }]
  let depErrs :=
    (b.dependencies.filter (fun d => !isAllowedDependency d)).map
      (fun d => { file := "manifest", message := "不允许的外部依赖: " ++ d })
  let fileErrs :=
    (b.files.map (fun f =>
      validateCode f.content f.path ++
        (match f.content.syntaxError with
         | some e => [{ file := f.path, message := "语法错误: " ++ e }]
         | none => []))).flatten
  entryErrs ++ depErrs ++ fileErrs

/-- The `fileContents` map built by `compile` step 2 (lines 343-348): path
with one extension stripped ↦ file body; later duplicates overwrite. -/
def buildFileContents (files : List ComponentFile) : List (String × ModBody) :=
  files.foldl (fun acc f => aset acc (stripExtension f.path) f.content.body) []

/-- Observable outcome of one `ModuleCompiler.compile` call: cache hit,
fresh compilation, thrown `CompileException errors`, the thrown
`Error("入口模块没有导出有效的 React 组件")`, or fuel exhaustion (model
artifact only). -/
inductive CompileOutcome where
  | hit (m : CompiledModule)
  | fresh (m : CompiledModule)
  | exn (errors : List CompileError)
  | errNoComponent
  | fuelOut
deriving DecidableEq, Repr

def CompileOutcome.isExn : CompileOutcome → Bool
  | .exn _ => true
  | _ => false

/-- The body of `compile` past the cache-freshness guard (part_012 lines
332-371). -/
def ModuleCompiler.compileGo (now fuel : Nat)
    (cache : List (String × CompiledModule)) (b : ComponentBundle) :
    CompileOutcome × List (String × CompiledModule) :=
  let errors := ModuleCompiler.validate b
  if errors.isEmpty then
    let fileContents := buildFileContents b.files
    let mainFileName := stripExtension b.entryPoint
    match executeMultiFileComponent fileContents mainFileName fuel with
    | none => (.fuelOut, cache)
    | some (_, none) => (.errNoComponent, cache)
    | some (_, some c) =>
      let compiled : CompiledModule :=
        { bundleId := b.id, compiledAt := now, component := c, meta := b.meta }
      (.fresh compiled, aset cache b.id compiled)
  else (.exn errors, cache)

/-- Model of `ModuleCompiler.compile` (part_012 lines 325-372).  `now` models
`Date.now()`; the guard is the source's
`cached.compiledAt > Date.parse(bundle.updatedAt)`. -/
def ModuleCompiler.compile (now fuel : Nat)
    (cache : List (String × CompiledModule)) (b : ComponentBundle) :
    CompileOutcome × List (String × CompiledModule) :=
  match alookup cache b.id with
  | some cached =>
      if b.updatedAt < cached.compiledAt then (.hit cached, cache)
      else ModuleCompiler.compileGo now fuel cache b
  | none => ModuleCompiler.compileGo now fuel cache b

/-- Model of `ModuleCompiler.clearCache` (part_012 lines 426-432): with an id delete
that entry, with no id clear the whole map. -/
def ModuleCompiler.clearCache (bundleId : Option String)
    (cache : List (String × CompiledModule)) : List (String × CompiledModule) :=
  match bundleId with
  | some id => cache.filter (fun e => decide (e.1 ≠ id))
  | none => []

/-- One successful fetch of `/api/component?path=…&withDeps=true`
(part_001 lines 474-477): the files of the bundle and the optional
`lastModified` field of the JSON response. -/
structure FetchData where
  files : List (String × String)
  lastModified : Option Nat
deriving DecidableEq, Repr

/-- The hot-reload watcher state held by `useComponentFiles`
(part_001 lines 416-419): the loaded files, the error state, and the
last-observed timestamp. -/
structure WatcherState where
  files : Option (List (String × String))
  error : Option String
  lastModified : Nat
deriving DecidableEq, Repr

/-- One poll tick, `checkForUpdates` (part_001 lines 471-490).  `none` input
covers both a non-ok response (early `return`) and a thrown fetch error (the
empty `catch`).  The result flag records whether a reload was triggered.
`data.lastModified || 0` is the `getD 0`. -/
def checkForUpdates (input : Option FetchData) (st : WatcherState) :
    WatcherState × Bool :=
  match input with
  | none => (st, false)
  | some d =>
    let newLastModified := d.lastModified.getD 0
    if st.lastModified < newLastModified then
      ({ files := some d.files, error := none, lastModified := newLastModified },
       true)
    else (st, false)

/-- A sequence of poll ticks; returns the final state and the number of
reloads triggered. -/
def runTicks : List (Option FetchData) → WatcherState → WatcherState × Nat
  | [], st => (st, 0)
  | t :: ts, st =>
    let r := checkForUpdates t st
    let rest := runTicks ts r.1
    (rest.1, (if r.2 then 1 else 0) + rest.2)

/-- The frame loop of `prerenderRemotionFrames` (part_006 lines 61-80),
started at index `i` with `n` frames left.  `capture` is the
`captureContainerToBitmap` oracle: `none` models a capture failure (a caught
exception returning `null`, lines 169-172), in which case the frame is not
inserted into the cache.  The first component is the frame cache in insertion
order, the second the list of frame indices for which
`renderFrameToContainer` was invoked. -/
def prerenderGo {β : Type} (capture : Nat → Option β) :
    Nat → Nat → List (Nat × β) × List Nat
  | _, 0 => ([], [])
  | i, n + 1 =>
    let rest := prerenderGo capture (i + 1) n
    match capture i with
    | some bmp => ((i, bmp) :: rest.1, i :: rest.2)
    | none => (rest.1, i :: rest.2)

/-- Model of `Math.ceil(element.duration * fps)`, clamped to the number of loop
iterations actually performed (a non-positive bound runs the loop zero
times). -/
def totalFramesOf (duration fps : ℚ) : Nat :=
  (Int.ceil (duration * fps)).toNat

/-- Model of `prerenderRemotionFrames` (part_006 lines 22-87): `none` when
`getRemotionComponent` finds no component, otherwise the frame cache and
`totalFrames`. -/
def prerenderRemotionFrames {β : Type} (component : Option JsVal)
    (duration fps : ℚ) (capture : Nat → Option β) :
    Option (List (Nat × β) × Nat) :=
  match component with
  | none => none
  | some _ =>
    let totalFrames := totalFramesOf duration fps
    some ((prerenderGo capture 0 totalFrames).1, totalFrames)

def frameKeys {β : Type} (m : List (Nat × β)) : List Nat := m.map Prod.fst

/-- The fifteen forbidden patterns of `validateEffectCode`
(effect-compiler.ts lines 14-33), identified by their messages. -/
def EFFECT_FORBIDDEN : List String :=
  ["禁止使用 useEffect", "禁止使用 useLayoutEffect", "禁止使用 fetch",
   "禁止使用 XMLHttpRequest", "禁止访问 document", "禁止访问 window",
   "禁止访问 localStorage", "禁止访问 sessionStorage", "禁止使用 eval",
   "禁止使用 Function 构造器", "禁止动态导入", "禁止使用 require",
   "禁止访问 process", "禁止访问 __dirname", "禁止访问 __filename"]

/-- Model of `validateEffectCode` (lines 13-42): it returns on the first matching
pattern; `none` models `{ valid: true }`. -/
def validateEffectCode (matched : List String) : Option String :=
  EFFECT_FORBIDDEN.find? (fun p => decide (p ∈ matched))

/-- What executing the wrapped effect code defines: the values of the
`Component` and `default_1` bindings after the statements run (`undefV` when
a binding is never introduced, matching the `typeof … !== 'undefined'`
probes), and whether the statements themselves throw. -/
structure EffectBody where
  componentVar : JsVal
  default1Var : JsVal
  execThrows : Bool
deriving DecidableEq, Repr

/-- An effect source file, observed through pattern matching and sucrase:
`transformed = none` models `transform` throwing. -/
structure EffectSource where
  matchedForbidden : List String
  transformed : Option EffectBody
deriving DecidableEq, Repr

/-- Running the `new Function` factory (effect-compiler.ts lines 66-77):
throws (`none`) when the statements throw or when neither `Component` nor
`default_1` is defined; otherwise yields `Component` first, `default_1`
second. -/
def runEffectFactory (b : EffectBody) : Option JsVal :=
  if b.execThrows then none
  else if typeofVal b.componentVar ≠ "undefined" then some b.componentVar
  else if typeofVal b.default1Var ≠ "undefined" then some b.default1Var
  else none

/-- Model of `compileEffectCode` (effect-compiler.ts lines 49-90).  Every failure —
validation, sucrase throwing, the factory throwing, a non-function result —
is caught and surfaced as `null` (`none`); the function itself never
throws. -/
def compileEffectCode (src : EffectSource) : Option JsVal :=
  match validateEffectCode src.matchedForbidden with
  | some _ => none
  | none =>
    match src.transformed with
    | none => none
    | some b =>
      match runEffectFactory b with
      | none => none
      | some c => if typeofVal c = "function" then some c else none

/-- Two-file bundle in which `entry` imports `./dep` and `dep` imports
`./entry`; the export lists of the two bodies are parameters. -/
def cyc2FC (ea eb : List (String × MExpr)) : List (String × ModBody) :=
  [("entry", { imports := ["./dep"], exps := ea }),
   ("dep", { imports := ["./entry"], exps := eb })]

/-- The circular resolution run used by the circular-import claims:
`dep` re-exports, under the key `got`, exactly the value its
`require("./entry")` call returned. -/
def cyclicRun (ea eb : List (String × MExpr)) : Option (JsVal × MState) :=
  compileModule (cyc2FC ea eb) 10 "entry" { imports := ["./dep"], exps := ea }
    emptyMState

/-- Modelled from the spec (§5): the consequence of the claimed cancellation
contract — if cancellation is requested after frame `k`, no frame index
beyond `k` is rendered.  The source loop (part_006 lines 61-80) offers no
cancellation input at all, so the predicate is stated over the loop's
rendered-frames log. -/
def prerenderHaltsAfter {β : Type} (capture : Nat → Option β) (n k : Nat) : Prop :=
  ∀ j ∈ (prerenderGo capture 0 n).2, j ≤ k

/-- A single-file bundle whose file text matches the `eval` forbidden
pattern. -/
def violFile : ComponentFile :=
  { path := "index",
    content := { matchedPatterns := ["禁止使用 eval"], syntaxError := none,
                 body := { imports := [], exps := [("default", .lit (.fnv 1))] } } }

def violBundle : ComponentBundle :=
  { id := "b", name := "n", entryPoint := "index", files := [violFile],
    dependencies := [], meta := 0, updatedAt := 5 }

/-- A cache entry for `violBundle` whose `compiledAt` (10) is strictly newer
than the bundle's `updatedAt` (5). -/
def freshEntry : CompiledModule :=
  { bundleId := "b", compiledAt := 10, component := .fnv 9, meta := 0 }

def freshCache : List (String × CompiledModule) := [("b", freshEntry)]

/-- A valid single-file bundle whose entry exports only the named symbol
`other` — neither `default` nor `Component`. -/
def onlyOtherBundle : ComponentBundle :=
  { id := "b2", name := "n", entryPoint := "index",
    files := [{ path := "index",
                content := { matchedPatterns := [], syntaxError := none,
                             body := { imports := [],
                                       exps := [("other", .lit (.fnv 7))] } } }],
    dependencies := [], meta := 0, updatedAt := 5 }

/-- A valid single-file bundle with a function default export. -/
def okBundle : ComponentBundle :=
  { id := "b1", name := "n", entryPoint := "index",
    files := [{ path := "index",
                content := { matchedPatterns := [], syntaxError := none,
                             body := { imports := [],
                                       exps := [("default", .lit (.fnv 7))] } } }],
    dependencies := [], meta := 0, updatedAt := 5 }

/-- The state of the cyclic run just after `dep`'s body has executed and been
cached, for the instance where `dep`'s body is exactly
`exports.got = require("./entry")`: address 0 is `entry`'s placeholder
exports object (still empty), address 1 is `entry`'s `mockExports` (not yet
written), address 2 is `dep`'s placeholder, address 3 is `dep`'s
`mockExports`. -/
def cyclicMidState : MState :=
  { heap := [[], [], [], [("got", JsVal.obj 0)]],
    cache := [("entry", (0, false)), ("dep", (3, true))],
    execLog := ["entry", "dep"] }

/-- The state of the cyclic run with an arbitrary `dep` body, just after both
placeholders and both `mockExports` objects have been allocated and both
bodies have started executing, before `dep`'s export writes. -/
def cycS8 : MState :=
  { heap := [[], [], [], []],
    cache := [("entry", (0, false)), ("dep", (2, false))],
    execLog := ["entry", "dep"] }

/-- Final state of the concrete cyclic run where `entry` exports
`x = 1` and `dep` re-exports the object its `require("./entry")`
returned. -/
def cyclicFinalState : MState :=
  { heap := [[], [("x", JsVal.num 1)], [], [("got", JsVal.obj 0)]],
    cache := [("entry", (1, true)), ("dep", (3, true))],
    execLog := ["entry", "dep"] }

/- ======================  lemmas and theorems  ====================== -/

theorem alookup_aset_self {β : Type} (l : List (String × β)) (k : String) (v : β) :
    alookup (aset l k v) k = some v := by
  induction l with
  | nil => simp [aset, alookup]
  | cons hd tl ih =>
    by_cases h : hd.1 = k
    · simp [aset, h, alookup]
    · simp [aset, h, alookup, ih]

theorem alookup_aset_ne {β : Type} (l : List (String × β)) (k j : String) (v : β)
    (h : j ≠ k) : alookup (aset l k v) j = alookup l j := by
  induction l with
  | nil => simp [aset, alookup, Ne.symm h]
  | cons hd tl ih =>
    obtain ⟨a, b⟩ := hd
    simp only [aset]
    by_cases hk : a = k
    · subst hk
      simp [alookup, Ne.symm h]
    · simp only [if_neg hk, alookup]
      by_cases hj : a = j
      · simp [hj]
      · simp [hj, ih]

theorem setProp_cache (s : MState) (a : Nat) (k : String) (v : JsVal) :
    (setProp s a k v).cache = s.cache := by
  unfold setProp
  cases s.heap[a]? <;> rfl

theorem setProp_execLog (s : MState) (a : Nat) (k : String) (v : JsVal) :
    (setProp s a k v).execLog = s.execLog := by
  unfold setProp
  cases s.heap[a]? <;> rfl

theorem setProp_heap_length (s : MState) (a : Nat) (k : String) (v : JsVal) :
    (setProp s a k v).heap.length = s.heap.length := by
  unfold setProp
  cases s.heap[a]? <;> simp

theorem heapAt_setProp_ne (s : MState) (a : Nat) (k : String) (v : JsVal)
    (j : Nat) (h : j ≠ a) : heapAt (setProp s a k v) j = heapAt s j := by
  unfold setProp heapAt
  cases s.heap[a]? <;> simp [List.getElem?_set_ne (fun e => h e.symm)]

theorem evalMExpr_cache (iv : List JsVal) (s : MState) (e : MExpr) :
    ((evalMExpr iv s e).1).cache = s.cache := by
  cases e <;> rfl

theorem evalMExpr_execLog (iv : List JsVal) (s : MState) (e : MExpr) :
    ((evalMExpr iv s e).1).execLog = s.execLog := by
  cases e <;> rfl

theorem evalMExpr_heap_length (iv : List JsVal) (s : MState) (e : MExpr) :
    s.heap.length ≤ ((evalMExpr iv s e).1).heap.length := by
  cases e <;> simp [evalMExpr, allocObj]

theorem heapAt_evalMExpr (iv : List JsVal) (s : MState) (e : MExpr)
    (j : Nat) (h : j < s.heap.length) :
    heapAt (evalMExpr iv s e).1 j = heapAt s j := by
  cases e <;> simp [evalMExpr, allocObj, heapAt, List.getElem?_append_left h]

theorem writeExports_cache (iv : List JsVal) (a : Nat)
    (es : List (String × MExpr)) (s : MState) :
    (writeExports iv a es s).cache = s.cache := by
  induction es generalizing s with
  | nil => rfl
  | cons hd tl ih =>
    simp only [writeExports, ih, setProp_cache, evalMExpr_cache]

theorem writeExports_execLog (iv : List JsVal) (a : Nat)
    (es : List (String × MExpr)) (s : MState) :
    (writeExports iv a es s).execLog = s.execLog := by
  induction es generalizing s with
  | nil => rfl
  | cons hd tl ih =>
    simp only [writeExports, ih, setProp_execLog, evalMExpr_execLog]

theorem writeExports_heap_length (iv : List JsVal) (a : Nat)
    (es : List (String × MExpr)) (s : MState) :
    s.heap.length ≤ (writeExports iv a es s).heap.length := by
  induction es generalizing s with
  | nil => exact Nat.le_refl _
  | cons hd tl ih =>
    calc s.heap.length ≤ ((evalMExpr iv s hd.2).1).heap.length :=
          evalMExpr_heap_length iv s hd.2
      _ = (setProp (evalMExpr iv s hd.2).1 a hd.1 (evalMExpr iv s hd.2).2).heap.length :=
          (setProp_heap_length _ _ _ _).symm
      _ ≤ _ := ih _

theorem heapAt_writeExports (iv : List JsVal) (a : Nat)
    (es : List (String × MExpr)) (s : MState) (j : Nat)
    (hja : j ≠ a) (hlen : j < s.heap.length) :
    heapAt (writeExports iv a es s) j = heapAt s j := by
  induction es generalizing s with
  | nil => rfl
  | cons hd tl ih =>
    have h1 : j < ((evalMExpr iv s hd.2).1).heap.length :=
      Nat.lt_of_lt_of_le hlen (evalMExpr_heap_length iv s hd.2)
    have h2 : j < (setProp (evalMExpr iv s hd.2).1 a hd.1
        (evalMExpr iv s hd.2).2).heap.length := by
      rw [setProp_heap_length]; exact h1
    calc heapAt (writeExports iv a (hd :: tl) s) j
        = heapAt (setProp (evalMExpr iv s hd.2).1 a hd.1 (evalMExpr iv s hd.2).2) j :=
          ih _ h2
      _ = heapAt (evalMExpr iv s hd.2).1 j := heapAt_setProp_ne _ _ _ _ _ hja
      _ = heapAt s j := heapAt_evalMExpr iv s hd.2 j hlen

theorem cyclicRun_general (ea eb : List (String × MExpr)) :
    ∃ s : MState,
      cyclicRun ea eb = some (JsVal.obj 1, s) ∧
      alookup s.cache "entry" = some (1, true) ∧
      alookup s.cache "dep" = some (3, true) ∧
      s.execLog = ["entry", "dep"] ∧
      1 < s.heap.length ∧ 3 < s.heap.length ∧
      heapAt s 0 = some [] := by
  have h : cyclicRun ea eb =
      some (JsVal.obj 1,
        { heap := (writeExports [JsVal.obj 3] 1 ea
            { heap := (writeExports [JsVal.obj 0] 3 eb cycS8).heap,
              cache := aset (writeExports [JsVal.obj 0] 3 eb cycS8).cache "dep" (3, true),
              execLog := (writeExports [JsVal.obj 0] 3 eb cycS8).execLog }).heap,
          cache := aset (writeExports [JsVal.obj 3] 1 ea
            { heap := (writeExports [JsVal.obj 0] 3 eb cycS8).heap,
              cache := aset (writeExports [JsVal.obj 0] 3 eb cycS8).cache "dep" (3, true),
              execLog := (writeExports [JsVal.obj 0] 3 eb cycS8).execLog }).cache "entry" (1, true),
          execLog := (writeExports [JsVal.obj 3] 1 ea
            { heap := (writeExports [JsVal.obj 0] 3 eb cycS8).heap,
              cache := aset (writeExports [JsVal.obj 0] 3 eb cycS8).cache "dep" (3, true),
              execLog := (writeExports [JsVal.obj 0] 3 eb cycS8).execLog }).execLog }) := rfl
  set W1 : MState := writeExports [JsVal.obj 0] 3 eb cycS8 with hW1
  set M : MState :=
    { heap := W1.heap, cache := aset W1.cache "dep" (3, true),
      execLog := W1.execLog } with hM
  set W2 : MState := writeExports [JsVal.obj 3] 1 ea M with hW2
  have hlen1 : (4 : Nat) ≤ W1.heap.length := by
    rw [hW1]; exact writeExports_heap_length [JsVal.obj 0] 3 eb cycS8
  have hlenM : M.heap.length = W1.heap.length := by rw [hM]
  have hlen2 : M.heap.length ≤ W2.heap.length := by
    rw [hW2]; exact writeExports_heap_length _ _ _ _
  refine ⟨_, h, ?_, ?_, ?_, ?_, ?_, ?_⟩
  · exact alookup_aset_self _ _ _
  · show alookup (aset W2.cache "entry" (1, true)) "dep" = some (3, true)
    rw [alookup_aset_ne _ _ _ _ (by decide), hW2, writeExports_cache]
    show alookup (aset W1.cache "dep" (3, true)) "dep" = some (3, true)
    exact alookup_aset_self _ _ _
  · show W2.execLog = ["entry", "dep"]
    rw [hW2, writeExports_execLog]
    show W1.execLog = ["entry", "dep"]
    rw [hW1, writeExports_execLog]
    rfl
  · show 1 < W2.heap.length
    omega
  · show 3 < W2.heap.length
    omega
  · show heapAt W2 0 = some []
    have h1 : heapAt (writeExports [JsVal.obj 3] 1 ea M) 0 = heapAt M 0 :=
      heapAt_writeExports _ _ _ _ _ (by decide) (by omega)
    rw [hW2, h1]
    show heapAt W1 0 = some []
    have h2 : heapAt (writeExports [JsVal.obj 0] 3 eb cycS8) 0 = heapAt cycS8 0 :=
      heapAt_writeExports _ _ _ _ _ (by decide) (by decide)
    rw [hW1, h2]
    rfl

theorem cyclicRun_got_eq (ea : List (String × MExpr)) :
    ∃ s : MState,
      cyclicRun ea [("got", MExpr.impRef 0)] = some (JsVal.obj 1, s) ∧
      getProp s (JsVal.obj 3) "got" = JsVal.obj 0 ∧
      alookup s.cache "entry" = some (1, true) ∧
      alookup s.cache "dep" = some (3, true) ∧
      heapAt s 0 = some [] := by
  have h : cyclicRun ea [("got", MExpr.impRef 0)] =
      some (JsVal.obj 1,
        { heap := (writeExports [JsVal.obj 3] 1 ea cyclicMidState).heap,
          cache := aset (writeExports [JsVal.obj 3] 1 ea cyclicMidState).cache
            "entry" (1, true),
          execLog := (writeExports [JsVal.obj 3] 1 ea cyclicMidState).execLog }) := rfl
  set W : MState := writeExports [JsVal.obj 3] 1 ea cyclicMidState with hW
  refine ⟨_, h, ?_, ?_, ?_, ?_⟩
  · have h3 : heapAt W 3 = some [("got", JsVal.obj 0)] := by
      rw [hW, heapAt_writeExports _ _ _ _ _ (by decide) (by decide)]
      rfl
    show getProp
      { heap := W.heap, cache := aset W.cache "entry" (1, true),
        execLog := W.execLog } (JsVal.obj 3) "got" = JsVal.obj 0
    have h3' : heapAt
        { heap := W.heap, cache := aset W.cache "entry" (1, true),
          execLog := W.execLog } 3 = some [("got", JsVal.obj 0)] := h3
    simp [getProp, h3', alookup]
  · exact alookup_aset_self _ _ _
  · show alookup (aset W.cache "entry" (1, true)) "dep" = some (3, true)
    rw [alookup_aset_ne _ _ _ _ (by decide), hW, writeExports_cache]
    rfl
  · have h0 : heapAt W 0 = some [] := by
      rw [hW, heapAt_writeExports _ _ _ _ _ (by decide) (by decide)]
      rfl
    exact h0

theorem typeof_function_truthy (v : JsVal) (h : typeofVal v = "function") :
    truthy v = true := by
  cases v with
  | fnv i => rfl
  | num n => exact absurd h (show ¬("number" : String) = "function" by decide)
  | obj a => exact absurd h (show ¬("object" : String) = "function" by decide)
  | builtin b => exact absurd h (show ¬("object" : String) = "function" by decide)
  | undefV => exact absurd h (show ¬("undefined" : String) = "function" by decide)

/-- C1 (counterexample): in the two-file cycle where `entry` exports `x = 1`
and `dep` re-exports the object returned by its `require("./entry")`, the
object handed to `dep` is address 0 (the placeholder), which is empty in the
final state, while the final cache entry for `entry` holds the different
address 1 carrying the final exports — so the exports object handed out
during the cycle is not the one populated with the ancestor's final
exports, refuting the claimed stable-identity/live-reference invariant. -/
theorem cyclicImport_cacheEntry_replaced_cex :
    cyclicRun [("x", MExpr.lit (SLit.num 1))] [("got", MExpr.impRef 0)] =
      some (JsVal.obj 1, cyclicFinalState) ∧
    getProp cyclicFinalState (JsVal.obj 3) "got" = JsVal.obj 0 ∧
    alookup cyclicFinalState.cache "entry" = some (1, true) ∧
    heapAt cyclicFinalState 0 = some [] ∧
    heapAt cyclicFinalState 1 = some [("x", JsVal.num 1)] ∧
    JsVal.obj 0 ≠ JsVal.obj 1 ∧
    some ([] : List (String × JsVal)) ≠ some [("x", JsVal.num 1)] :=
  ⟨rfl, rfl, rfl, rfl, rfl, by decide, by decide⟩

/-- C1 (amended): a module that re-enters an in-progress ancestor receives
the ancestor's placeholder exports object (address 0), which stays empty
forever; when the ancestor's body finishes, `compileModule` installs a
different object (address 1, the `mockExports`) in the cache entry, so the
handed-out reference never observes the ancestor's final exports. -/
theorem cyclicImport_receives_stale_placeholder (ea : List (String × MExpr)) :
    ∃ s : MState,
      cyclicRun ea [("got", MExpr.impRef 0)] = some (JsVal.obj 1, s) ∧
      getProp s (JsVal.obj 3) "got" = JsVal.obj 0 ∧
      alookup s.cache "entry" = some (1, true) ∧
      heapAt s 0 = some [] := by
  obtain ⟨s, h1, h2, h3, h4, h5⟩ := cyclicRun_got_eq ea
  exact ⟨s, h1, h2, h3, h5⟩

/-- C4: for the two-file bundle where `entry` imports `./dep` and `dep`
imports `./entry` (arbitrary export lists), resolution terminates with fuel
to spare, each module's body is handed to the evaluator exactly once
(`execLog = ["entry", "dep"]`), both cached exports objects are live heap
objects (their addresses are within the heap), and the module re-entered
during the cycle receives an exports object that is possibly incomplete —
concretely the still-empty placeholder at address 0. -/
theorem cyclicImport_terminates_bodies_once :
    (∀ ea eb : List (String × MExpr),
       ∃ s : MState,
         cyclicRun ea eb = some (JsVal.obj 1, s) ∧
         alookup s.cache "entry" = some (1, true) ∧
         alookup s.cache "dep" = some (3, true) ∧
         s.execLog = ["entry", "dep"] ∧
         1 < s.heap.length ∧ 3 < s.heap.length) ∧
    (∀ ea : List (String × MExpr),
       ∃ s : MState,
         cyclicRun ea [("got", MExpr.impRef 0)] = some (JsVal.obj 1, s) ∧
         getProp s (JsVal.obj 3) "got" = JsVal.obj 0 ∧
         heapAt s 0 = some []) := by
  constructor
  · intro ea eb
    obtain ⟨s, h1, h2, h3, h4, h5, h6, _⟩ := cyclicRun_general ea eb
    exact ⟨s, h1, h2, h3, h4, h5, h6⟩
  · intro ea
    obtain ⟨s, h1, h2, _, _, h5⟩ := cyclicRun_got_eq ea
    exact ⟨s, h1, h2, h5⟩

theorem alookup_filter_ne_self {β : Type} (l : List (String × β)) (id : String) :
    alookup (l.filter (fun e => decide (e.1 ≠ id))) id = none := by
  induction l with
  | nil => rfl
  | cons hd tl ih =>
    obtain ⟨a, b⟩ := hd
    rw [List.filter_cons]
    by_cases h : a = id
    · rw [if_neg (by simp [h])]
      exact ih
    · rw [if_pos (by simp [h])]
      simp only [alookup, if_neg h]
      exact ih

theorem alookup_filter_ne_other {β : Type} (l : List (String × β)) (id j : String)
    (hj : j ≠ id) :
    alookup (l.filter (fun e => decide (e.1 ≠ id))) j = alookup l j := by
  induction l with
  | nil => rfl
  | cons hd tl ih =>
    obtain ⟨a, b⟩ := hd
    rw [List.filter_cons]
    by_cases h : a = id
    · have hne : a ≠ j := by rw [h]; exact fun e => hj e.symm
      rw [if_neg (by simp [h])]
      simp only [alookup, if_neg hne]
      exact ih
    · rw [if_pos (by simp [h])]
      simp only [alookup]
      by_cases h2 : a = j
      · rw [if_pos h2, if_pos h2]
      · rw [if_neg h2, if_neg h2]
        exact ih

/-- C9: invalidating with a bundle id removes exactly that entry and leaves
every other lookup unchanged; invalidating with no id clears the cache. -/
theorem clearCache_semantics :
    (∀ (cache : List (String × CompiledModule)) (id : String),
       alookup (ModuleCompiler.clearCache (some id) cache) id = none) ∧
    (∀ (cache : List (String × CompiledModule)) (id j : String), j ≠ id →
       alookup (ModuleCompiler.clearCache (some id) cache) j = alookup cache j) ∧
    (∀ cache : List (String × CompiledModule),
       ModuleCompiler.clearCache none cache = []) :=
  ⟨fun cache id => alookup_filter_ne_self cache id,
   fun cache id j hj => alookup_filter_ne_other cache id j hj,
   fun _ => rfl⟩

theorem clearCache_semantics_witness :
    alookup (ModuleCompiler.clearCache (some "a") [("a", freshEntry), ("b", freshEntry)])
        "b" = alookup [("a", freshEntry), ("b", freshEntry)] "b" :=
  clearCache_semantics.2.1 [("a", freshEntry), ("b", freshEntry)] "a" "b" (by decide)

/-- C7: a poll tick observing a strictly newer timestamp triggers exactly one
reload, applies the fetched files, clears the error state and records the new
timestamp; two consecutive no-change ticks trigger zero reloads; a failed
fetch leaves the state untouched and the remaining ticks proceed as if the
failed tick had not happened. -/
theorem hot_reload_tick_behavior :
    (∀ (st : WatcherState) (d : FetchData),
       st.lastModified < d.lastModified.getD 0 →
       checkForUpdates (some d) st =
         ({ files := some d.files, error := none,
            lastModified := d.lastModified.getD 0 }, true) ∧
       runTicks [some d] st =
         ({ files := some d.files, error := none,
            lastModified := d.lastModified.getD 0 }, 1)) ∧
    (∀ (st : WatcherState) (d1 d2 : FetchData),
       d1.lastModified.getD 0 ≤ st.lastModified →
       d2.lastModified.getD 0 ≤ st.lastModified →
       runTicks [some d1, some d2] st = (st, 0)) ∧
    (∀ st : WatcherState, checkForUpdates none st = (st, false)) ∧
    (∀ (st : WatcherState) (rest : List (Option FetchData)),
       runTicks (none :: rest) st = runTicks rest st) := by
  refine ⟨?_, ?_, fun st => rfl, ?_⟩
  · intro st d h
    exact ⟨by simp [checkForUpdates, h], by simp [runTicks, checkForUpdates, h]⟩
  · intro st d1 d2 h1 h2
    simp [runTicks, checkForUpdates, Nat.not_lt.mpr h1, Nat.not_lt.mpr h2]
  · intro st rest
    simp [runTicks, checkForUpdates]

theorem hot_reload_tick_behavior_witness :
    checkForUpdates (some ⟨[("a", "new")], some 7⟩) ⟨some [("a", "old")], some "err", 5⟩ =
      ({ files := some [("a", "new")], error := none, lastModified := 7 }, true) ∧
    runTicks [some ⟨[("a", "new")], some 3⟩, some ⟨[("a", "new")], none⟩]
        ⟨some [("a", "old")], some "err", 5⟩ =
      (⟨some [("a", "old")], some "err", 5⟩, 0) ∧
    runTicks (none :: [some ⟨[("a", "new")], some 7⟩]) ⟨some [("a", "old")], some "err", 5⟩ =
      runTicks [some ⟨[("a", "new")], some 7⟩] ⟨some [("a", "old")], some "err", 5⟩ :=
  ⟨(hot_reload_tick_behavior.1 _ _ (by decide)).1,
   hot_reload_tick_behavior.2.1 _ _ _ (by decide) (by decide),
   hot_reload_tick_behavior.2.2.2 _ _⟩

theorem prerenderGo_rendered {β : Type} (capture : Nat → Option β) (i n : Nat) :
    (prerenderGo capture i n).2 = List.range' i n := by
  induction n generalizing i with
  | zero => rfl
  | succ n ih =>
    cases h : capture i <;> simp [prerenderGo, h, ih, List.range'_succ]

theorem prerenderGo_keys {β : Type} (capture : Nat → Option β) (i n : Nat) :
    (prerenderGo capture i n).1.map Prod.fst =
      (List.range' i n).filter (fun j => (capture j).isSome) := by
  induction n generalizing i with
  | zero => rfl
  | succ n ih =>
    cases h : capture i <;>
      simp [prerenderGo, h, ih (i + 1), List.range'_succ, List.filter_cons]

/-- C8 (counterexample): the prerender loop has no cancellation input; with
two frames and every capture succeeding, frame 1 is rendered and captured
even though the claimed contract, for a cancellation requested after frame
0, would confine the result to frame 0 — so the map is not the prefix
captured before cancellation. -/
theorem prerender_no_cancellation_cex :
    ¬ prerenderHaltsAfter (fun i => some i) 2 0 ∧
    (prerenderGo (fun i : Nat => some i) 0 2).2 = [0, 1] ∧
    frameKeys (prerenderGo (fun i : Nat => some i) 0 2).1 = [0, 1] := by
  refine ⟨?_, rfl, rfl⟩
  intro hf
  exact absurd (hf 1 (by decide)) (by decide)

/-- C8 (amended): the loop of `prerenderRemotionFrames` checks no
cancellation flag; it invokes the render step for every frame index
`0 … N-1` unconditionally, so the caller always receives the result of the
full range (cancellation of an export takes effect only in the later
exporter stage, never between prerender frames). -/
theorem prerender_renders_all_frames {β : Type} (capture : Nat → Option β) (n : Nat) :
    (prerenderGo capture 0 n).2 = List.range n := by
  rw [prerenderGo_rendered, List.range_eq_range']

/-- C5: a prerender run over `N = ceil(duration * fps)` frames produces a map
whose keys are exactly the frame indices whose capture succeeded, in
particular exactly `0 … N-1` when every capture succeeds, and a strict
subset of `0 … N-1` when some capture fails — a failed frame is omitted
without stopping the remaining frames. -/
theorem prerender_frame_map_keys {β : Type} (component : JsVal) (duration fps : ℚ)
    (capture : Nat → Option β) (m : List (Nat × β)) (total : Nat)
    (h : prerenderRemotionFrames (some component) duration fps capture =
      some (m, total)) :
    total = totalFramesOf duration fps ∧
    frameKeys m = (List.range total).filter (fun j => (capture j).isSome) ∧
    ((∀ j, j < total → (capture j).isSome = true) → frameKeys m = List.range total) ∧
    ((∃ j, j < total ∧ capture j = none) →
       (frameKeys m).toFinset ⊂ Finset.range total) := by
  simp only [prerenderRemotionFrames, Option.some.injEq, Prod.mk.injEq] at h
  obtain ⟨hm, ht⟩ := h
  subst hm
  subst ht
  have hkeys : frameKeys (prerenderGo capture 0 (totalFramesOf duration fps)).1 =
      (List.range (totalFramesOf duration fps)).filter (fun j => (capture j).isSome) := by
    show (prerenderGo capture 0 (totalFramesOf duration fps)).1.map Prod.fst = _
    rw [prerenderGo_keys, ← List.range_eq_range']
  refine ⟨rfl, hkeys, ?_, ?_⟩
  · intro hall
    rw [hkeys]
    exact List.filter_eq_self.mpr fun a ha => hall a (List.mem_range.mp ha)
  · rintro ⟨j, hj, hnone⟩
    rw [hkeys]
    have hsub : ((List.range (totalFramesOf duration fps)).filter
        (fun j => (capture j).isSome)).toFinset ⊆
        Finset.range (totalFramesOf duration fps) := by
      intro x hx
      rw [List.mem_toFinset] at hx
      exact Finset.mem_range.mpr (List.mem_range.mp (List.mem_of_mem_filter hx))
    refine (Finset.ssubset_iff_of_subset hsub).mpr
      ⟨j, Finset.mem_range.mpr hj, ?_⟩
    intro hmem
    rw [List.mem_toFinset, List.mem_filter] at hmem
    have h2 := hmem.2
    rw [hnone] at h2
    simp at h2

theorem prerender_frame_map_keys_witness :
    frameKeys (prerenderGo (fun _ : Nat => some (0 : Nat)) 0 (totalFramesOf 1 2)).1 =
      List.range (totalFramesOf 1 2) ∧
    (frameKeys (prerenderGo (fun i : Nat => if i = 0 then some (0 : Nat) else none) 0
        (totalFramesOf 1 2)).1).toFinset ⊂ Finset.range (totalFramesOf 1 2) := by
  constructor
  · exact (prerender_frame_map_keys (.fnv 0) 1 2 (fun _ => some 0) _ _ rfl).2.2.1
      (fun j hj => rfl)
  · have hN : totalFramesOf 1 2 = 2 := by
      norm_num [totalFramesOf]
      rfl
    exact (prerender_frame_map_keys (.fnv 0) 1 2
      (fun i => if i = 0 then some 0 else none) _ _ rfl).2.2.2
      ⟨1, by rw [hN]; decide, rfl⟩

/-- C10: `compileEffectCode` is total at its interface: it yields `none`
exactly when a forbidden pattern matches, sucrase's transform throws, the
generated code throws while executing (including the no-export throw), or
the produced value is not a function; any returned value is the function
the factory produced. -/
theorem compileEffectCode_total_interface (src : EffectSource) :
    (compileEffectCode src = none ↔
       (validateEffectCode src.matchedForbidden).isSome = true ∨
       src.transformed = none ∨
       (∃ b, src.transformed = some b ∧ runEffectFactory b = none) ∨
       (∃ b c, src.transformed = some b ∧ runEffectFactory b = some c ∧
          typeofVal c ≠ "function")) ∧
    (∀ c, compileEffectCode src = some c →
       validateEffectCode src.matchedForbidden = none ∧
       typeofVal c = "function" ∧
       ∃ b, src.transformed = some b ∧ runEffectFactory b = some c) := by
  cases hv : validateEffectCode src.matchedForbidden with
  | some p => simp [compileEffectCode, hv]
  | none =>
    cases ht : src.transformed with
    | none => simp [compileEffectCode, hv, ht]
    | some b =>
      cases hr : runEffectFactory b with
      | none => simp [compileEffectCode, hv, ht, hr]
      | some c0 =>
        by_cases hf : typeofVal c0 = "function"
        · simp [compileEffectCode, hv, ht, hr, hf]
        · simp [compileEffectCode, hv, ht, hr, hf]

theorem compileEffectCode_total_interface_witness :
    validateEffectCode
        (EffectSource.mk [] (some ⟨JsVal.fnv 3, JsVal.undefV, false⟩)).matchedForbidden =
      none ∧
    typeofVal (JsVal.fnv 3) = "function" ∧
    ∃ b, (EffectSource.mk [] (some ⟨JsVal.fnv 3, JsVal.undefV, false⟩)).transformed =
        some b ∧ runEffectFactory b = some (JsVal.fnv 3) :=
  (compileEffectCode_total_interface
    (EffectSource.mk [] (some ⟨JsVal.fnv 3, JsVal.undefV, false⟩))).2 (JsVal.fnv 3) rfl

/-- C2: a cache entry whose `compiledAt` is strictly newer than the bundle's
`updatedAt` is returned unchanged with the cache untouched (no validation,
translation or execution runs); with the entry stale (`updatedAt` advanced to
or past `compiledAt`) and the pipeline succeeding, `compile` produces a fresh
`CompiledModule` stamped `now` and replaces the cache entry; and after a
successful first compile with `updatedAt < now`, an immediate second compile
is a cache hit returning the identical handle. -/
theorem compile_cache_hit_and_staleness :
    (∀ (now fuel : Nat) (cache : List (String × CompiledModule))
       (b : ComponentBundle) (m : CompiledModule),
       alookup cache b.id = some m → b.updatedAt < m.compiledAt →
       ModuleCompiler.compile now fuel cache b = (.hit m, cache)) ∧
    (∀ (now fuel : Nat) (cache : List (String × CompiledModule))
       (b : ComponentBundle) (m : CompiledModule) (s : MState) (c : JsVal),
       alookup cache b.id = some m → m.compiledAt ≤ b.updatedAt →
       ModuleCompiler.validate b = [] →
       executeMultiFileComponent (buildFileContents b.files)
         (stripExtension b.entryPoint) fuel = some (s, some c) →
       ModuleCompiler.compile now fuel cache b =
         (.fresh { bundleId := b.id, compiledAt := now, component := c, meta := b.meta },
          aset cache b.id
            { bundleId := b.id, compiledAt := now, component := c, meta := b.meta })) ∧
    (∀ (now now2 fuel : Nat) (cache : List (String × CompiledModule))
       (b : ComponentBundle) (s : MState) (c : JsVal),
       alookup cache b.id = none →
       ModuleCompiler.validate b = [] →
       executeMultiFileComponent (buildFileContents b.files)
         (stripExtension b.entryPoint) fuel = some (s, some c) →
       b.updatedAt < now →
       ModuleCompiler.compile now fuel cache b =
         (.fresh { bundleId := b.id, compiledAt := now, component := c, meta := b.meta },
          aset cache b.id
            { bundleId := b.id, compiledAt := now, component := c, meta := b.meta }) ∧
       ModuleCompiler.compile now2 fuel
           (aset cache b.id
             { bundleId := b.id, compiledAt := now, component := c, meta := b.meta }) b =
         (.hit { bundleId := b.id, compiledAt := now, component := c, meta := b.meta },
          aset cache b.id
            { bundleId := b.id, compiledAt := now, component := c, meta := b.meta })) := by
  refine ⟨?_, ?_, ?_⟩
  · intro now fuel cache b m h1 h2
    simp [ModuleCompiler.compile, h1, h2]
  · intro now fuel cache b m s c h1 h2 h3 h4
    simp [ModuleCompiler.compile, h1, Nat.not_lt.mpr h2,
      ModuleCompiler.compileGo, h3, h4]
  · intro now now2 fuel cache b s c h1 h2 h3 h4
    constructor
    · simp [ModuleCompiler.compile, h1, ModuleCompiler.compileGo, h2, h3]
    · simp [ModuleCompiler.compile, alookup_aset_self, h4]

theorem compile_cache_hit_and_staleness_witness :
    ModuleCompiler.compile 100 50 [] okBundle =
      (.fresh { bundleId := "b1", compiledAt := 100, component := JsVal.fnv 7, meta := 0 },
       aset [] "b1"
         { bundleId := "b1", compiledAt := 100, component := JsVal.fnv 7, meta := 0 }) ∧
    ModuleCompiler.compile 200 50
        (aset [] "b1"
          { bundleId := "b1", compiledAt := 100, component := JsVal.fnv 7, meta := 0 })
        okBundle =
      (.hit { bundleId := "b1", compiledAt := 100, component := JsVal.fnv 7, meta := 0 },
       aset [] "b1"
         { bundleId := "b1", compiledAt := 100, component := JsVal.fnv 7, meta := 0 }) :=
  compile_cache_hit_and_staleness.2.2 100 200 50 [] okBundle
    ⟨[[], [("default", JsVal.fnv 7)]], [("index", (1, true))], ["index"]⟩
    (JsVal.fnv 7) rfl rfl rfl (by decide)

theorem security_error_mem_validate (b : ComponentBundle) (f : ComponentFile)
    (p : String) (hf : f ∈ b.files) (hp : p ∈ FORBIDDEN_PATTERNS)
    (hm : p ∈ f.content.matchedPatterns) :
    ({ file := f.path, message := "安全验证失败: " ++ p } : CompileError) ∈
      ModuleCompiler.validate b := by
  unfold ModuleCompiler.validate
  apply List.mem_append_right
  rw [List.mem_flatten]
  refine ⟨validateCode f.content f.path ++
    (match f.content.syntaxError with
     | some e => [{ file := f.path, message := "语法错误: " ++ e }]
     | none => []), List.mem_map_of_mem _ hf, ?_⟩
  apply List.mem_append_left
  unfold validateCode
  exact List.mem_map.mpr ⟨p, List.mem_filter.mpr ⟨hp, by simpa using hm⟩, rfl⟩

/-- C3 (amended): provided the cache holds no entry for the bundle whose
`compiledAt` is strictly newer than `updatedAt` (otherwise the freshness
guard returns the cached module without validating), a bundle with at least
one file matching a forbidden pattern makes `compile` throw
`CompileException` carrying the non-empty validation error list — which
contains every file's security violations — and leaves the cache exactly as
it was. -/
theorem compile_violations_raise_and_preserve_cache
    (now fuel : Nat) (cache : List (String × CompiledModule)) (b : ComponentBundle)
    (hstale : ∀ m, alookup cache b.id = some m → m.compiledAt ≤ b.updatedAt)
    (f : ComponentFile) (p : String) (hf : f ∈ b.files)
    (hp : p ∈ FORBIDDEN_PATTERNS) (hm : p ∈ f.content.matchedPatterns) :
    ModuleCompiler.compile now fuel cache b =
      (.exn (ModuleCompiler.validate b), cache) ∧
    ModuleCompiler.validate b ≠ [] ∧
    (∀ f2 ∈ b.files, ∀ p2 ∈ FORBIDDEN_PATTERNS, p2 ∈ f2.content.matchedPatterns →
       ({ file := f2.path, message := "安全验证失败: " ++ p2 } : CompileError) ∈
         ModuleCompiler.validate b) := by
  have hne : ModuleCompiler.validate b ≠ [] :=
    List.ne_nil_of_mem (security_error_mem_validate b f p hf hp hm)
  refine ⟨?_, hne,
    fun f2 h2 p2 hp2 hm2 => security_error_mem_validate b f2 p2 h2 hp2 hm2⟩
  have hgo : ModuleCompiler.compileGo now fuel cache b =
      (.exn (ModuleCompiler.validate b), cache) := by
    simp only [ModuleCompiler.compileGo]
    rw [if_neg (fun hc : (ModuleCompiler.validate b).isEmpty = true =>
      hne (List.isEmpty_iff.mp hc))]
  cases halo : alookup cache b.id with
  | none => simp [ModuleCompiler.compile, halo, hgo]
  | some m =>
    have hlt := Nat.not_lt.mpr (hstale m halo)
    simp [ModuleCompiler.compile, halo, hlt, hgo]

theorem compile_violations_raise_and_preserve_cache_witness :
    ModuleCompiler.compile 100 50 [] violBundle =
      (.exn (ModuleCompiler.validate violBundle), []) ∧
    ModuleCompiler.validate violBundle ≠ [] := by
  have h := compile_violations_raise_and_preserve_cache 100 50 [] violBundle
    (fun m hm => nomatch hm) violFile "禁止使用 eval"
    (by decide) (by decide) (by decide)
  exact ⟨h.1, h.2.1⟩

/-- C3 (counterexample): `violBundle` has a file matching the `eval`
forbidden pattern, yet with a cache entry whose `compiledAt` (10) is newer
than `updatedAt` (5), `compile` raises nothing: it returns the stale cached
module via the freshness guard, which runs before validation. -/
theorem compile_violation_fresh_cache_cex :
    ModuleCompiler.compile 100 50 freshCache violBundle =
      (.hit freshEntry, freshCache) ∧
    (ModuleCompiler.compile 100 50 freshCache violBundle).1.isExn = false ∧
    violFile ∈ violBundle.files ∧
    "禁止使用 eval" ∈ FORBIDDEN_PATTERNS ∧
    "禁止使用 eval" ∈ violFile.content.matchedPatterns :=
  ⟨rfl, rfl, by decide, by decide, by decide⟩

/-- C6: component selection is the ordered fallback — the explicit `default`
export first, then the export named `Component` (JavaScript `||`) — with
exactly one level of `default` unwrapping when the chosen value is a truthy
object carrying a `default` key; any handle it returns is a function, and an
entry file exporting only the named symbol `other` makes `compile` throw the
no-component error instead of returning a non-callable handle. -/
theorem component_selection_fallback :
    (∀ (s : MState) (v c : JsVal),
       selectComponent s v = some c → typeofVal c = "function") ∧
    (∀ (s : MState) (v : JsVal),
       typeofVal (getProp s v "default") = "function" →
       selectComponent s v = some (getProp s v "default")) ∧
    (∀ (s : MState) (v : JsVal),
       truthy (getProp s v "default") = false →
       typeofVal (getProp s v "Component") = "function" →
       selectComponent s v = some (getProp s v "Component")) ∧
    (∀ (s : MState) (v : JsVal) (a : Nat),
       getProp s v "default" = JsVal.obj a →
       hasProp s (JsVal.obj a) "default" = true →
       selectComponent s v =
         (if typeofVal (getProp s (JsVal.obj a) "default") = "function"
          then some (getProp s (JsVal.obj a) "default") else none)) ∧
    ModuleCompiler.compile 100 50 [] onlyOtherBundle = (.errNoComponent, []) := by
  refine ⟨?_, ?_, ?_, ?_, by decide⟩
  · intro s v c h
    have key : ∀ w : JsVal,
        (if (!truthy w) = true then none
         else if (typeofVal w != "function") = true then none else some w) =
          some c → typeofVal c = "function" := by
      intro w hw
      split at hw
      · exact absurd hw (by simp)
      · split at hw
        · exact absurd hw (by simp)
        · rename_i h2
          injection hw with h3
          subst h3
          simpa using h2
    simp only [selectComponent] at h
    exact key _ h
  · intro s v h
    have htr := typeof_function_truthy _ h
    simp [selectComponent, htr, h]
  · intro s v hd hcomp
    have htr := typeof_function_truthy _ hcomp
    simp [selectComponent, hd, hcomp, htr]
  · intro s v a hpd hhas
    simp only [selectComponent, hpd, truthy, typeofVal, hhas]
    cases hk : getProp s (JsVal.obj a) "default" with
    | num n => by_cases hn : n = 0 <;> simp [hhas, hk, hn]
    | fnv i => simp [hhas, hk]
    | obj b => simp [hhas, hk]
    | builtin b => simp [hhas, hk]
    | undefV => simp [hhas, hk]

theorem component_selection_fallback_witness :
    selectComponent ⟨[[("default", JsVal.obj 1)], [("default", JsVal.fnv 5)]], [], []⟩
        (JsVal.obj 0) = some (JsVal.fnv 5) := by
  have h := component_selection_fallback.2.2.2.1
    ⟨[[("default", JsVal.obj 1)], [("default", JsVal.fnv 5)]], [], []⟩
    (JsVal.obj 0) 1 rfl rfl
  simpa using h
